import Mathlib

/-!
Shallow embedding of the `SubscriptProxy` class (src/subscriptproxy.js).

`SubscriptProxy.applyTo(target, kvMapOrFunction, options)` normalizes a
polymorphic source into a key/value map (with the reserved marker keys
`'*'` for a wildcard handler and `'**'` for a live generator source),
wraps a copy of the target's parent prototype in a Proxy with `get`,
`has` and `ownKeys` traps, and splices that proxy into the target's
prototype chain.

Modelling choices, each noted at its definition:
- property keys are strings; symbol keys and the JS reordering of
  array-index-like string keys are outside the claims and not modelled,
  so own-key enumeration order is plain insertion order;
- a resolver function `(target, property, receiver) => v` is modelled as
  a pure function of the `property` argument (a lookup table plus a
  default), which covers every resolver the claims mention;
- the externally mutable iterable behind a generator source is modelled
  by a world index `w : Nat`: the generator yields `g w` when it is
  re-run at world `w`, so distinct worlds model out-of-band mutation of
  the backing iterable between two accesses.
-/

/-- JS values as the SubscriptProxy traps see them.
`fn table dflt` is a user resolver returning `table[property]` or `dflt`;
`wrappedFn inner` is the fallback closure built in `applyTo` (lines
96-103 of src/subscriptproxy.js) around a user wildcard handler;
`reflectGetFn` is `Reflect.get.bind(Reflect)` (line 107);
`genFn g` is a generator function (the bound `Symbol.iterator` of a live
iterable, line 87), producing entry list `g w` at world `w`;
`genObjVal g` is the generator object obtained by calling `genFn g`. -/
inductive Value where
  | undef
  | null
  | str (s : String)
  | num (n : Int)
  | bool (b : Bool)
  | fn (table : List (String × Value)) (dflt : Value)
  | wrappedFn (inner : Value)
  | reflectGetFn
  | genFn (g : Nat → List (String × Value))
  | genObjVal (g : Nat → List (String × Value))

/-- A plain (non-proxy) JS object: its own string-keyed properties in
insertion order. -/
abbrev PlainObj := List (String × Value)

/-- Own-property lookup on a plain object: first entry with the key. -/
def lookupOwn : List (String × Value) → String → Option Value
  | [], _ => none
  | (k, v) :: rest, key => bif k == key then some v else lookupOwn rest key

/-- `Reflect.ownKeys` / `Object.keys` of a plain object. -/
def keysOf (m : List (String × Value)) : List String := m.map Prod.fst

/-- Ordinary (non-proxy) prototype-chain lookup, the behaviour of
`Reflect.get(target, property, receiver)` when `target` is a plain
object whose chain of own-property maps is `chain`; yields `undefined`
when the chain is exhausted. -/
def chainLookup : List PlainObj → String → Value
  | [], _ => Value.undef
  | o :: rest, key =>
    match lookupOwn o key with
    | some v => v
    | none => chainLookup rest key

/-- Ordinary `Reflect.has` over a plain prototype chain. -/
def chainHas : List PlainObj → String → Bool
  | [], _ => false
  | o :: rest, key => (lookupOwn o key).isSome || chainHas rest key

/-- JS nullish test (`x ?? y` takes `y` exactly when `x` is nullish). -/
def isNullish : Value → Bool
  | .undef => true
  | .null => true
  | _ => false

/-- JS `typeof v === 'function'` (the `is.fn` check, line 186). Bound
`Reflect.get`, the fallback wrapper closure and generator functions are
all functions. -/
def isFn : Value → Bool
  | .fn _ _ => true
  | .wrappedFn _ => true
  | .reflectGetFn => true
  | .genFn _ => true
  | _ => false

/-- JS truthiness, as used by `if (handler)` in the `get` trap. -/
def truthy : Value → Bool
  | .undef => false
  | .null => false
  | .bool b => b
  | .num n => !(n == 0)
  | .str s => !(s == "")
  | _ => true

/-- Evaluate the table-plus-default body of a user resolver at a key. -/
def applyTable : List (String × Value) → Value → String → Value
  | [], dflt, _ => dflt
  | (k, v) :: rest, dflt, key => bif k == key then v else applyTable rest dflt key

/-- Call a callable value with `(target, property, receiver)`, where
`target` is the synthetic prototype whose visible chain of own-property
maps is `chain`. The wrapper closure retries with `Reflect.get` exactly
when the inner handler returned the undefined sentinel (line 99).
Calling a generator function returns a generator object. Calling a
non-callable raises a TypeError in JS; the theorems below only ever call
values that `applyTo` or `isFn` guarantees callable, so that branch is
modelled as `undef` and never reached. -/
def callFn (chain : List PlainObj) (v : Value) (key : String) : Value :=
  match v with
  | .fn table dflt => applyTable table dflt key
  | .wrappedFn inner =>
    match callFn chain inner key with
    | .undef => chainLookup chain key
    | r => r
  | .reflectGetFn => chainLookup chain key
  | .genFn g => .genObjVal g
  | _ => (Value.undef)

/-- Does the object already own the key? -/
def hasKey (m : List (String × Value)) (key : String) : Bool :=
  m.any (fun p => p.1 == key)

/-- JS property write on a plain object: overwrite in place when the key
exists (keeping its position in insertion order), append otherwise. -/
def setEntry (m : List (String × Value)) (key : String) (v : Value) : List (String × Value) :=
  bif hasKey m key then
    m.map (fun p => bif p.1 == key then (key, v) else p)
  else m ++ [(key, v)]

/-- Forward accumulation for `Object.fromEntries` / `Object.assign`. -/
def fromEntriesAux : List (String × Value) → List (String × Value) → List (String × Value)
  | acc, [] => acc
  | acc, (k, v) :: rest => fromEntriesAux (setEntry acc k v) rest

/-- `Object.fromEntries`: later pairs with a duplicate key overwrite
earlier ones; key order is first-insertion order. -/
def fromEntries (l : List (String × Value)) : List (String × Value) :=
  fromEntriesAux [] l

/-- The options record, with the defaults destructured in `applyTo`
(lines 69-74). -/
structure Options where
  fallback : Bool := true
  evalFns : Bool := true
  except : List String := []
  copyParentProto : Bool := true

/-- The wildcard marker key (static `ALL`, line 213). -/
def ALL : String := "*"

/-- The generator-source marker key (static `GENFN`, line 214). -/
def GENFN : String := "**"

/-- A `SubscriptProxy` instance after `applyTo`: the target's own
properties, the target's original prototype chain (a list of
own-property maps, nearest first), the normalized key/value map and the
resolved options. `copyParentProto` only decides whether the proxied
prototype is a fresh `Object.create` copy in front of the original chain
or the original parent itself; both give the very same `Reflect.get` /
`Reflect.has` results over `origChain`, so the chain is stored once. -/
structure SubscriptProxy where
  targetOwn : PlainObj
  origChain : List PlainObj
  keyValueMap : List (String × Value)
  options : Options

/-- The fresh generator snapshot `is.genFn(iterator) ? [...iterator()] : []`
taken by `_getRelevantKeys` (line 44) at world `w`: entries only when the
`'**'` slot holds a generator function. -/
def genSnapshot (p : SubscriptProxy) (w : Nat) : List (String × Value) :=
  match lookupOwn p.keyValueMap GENFN with
  | some (Value.genFn g) => g w
  | _ => []

/-- `_getRelevantKeys` (lines 38-54): own keys of the key/value map,
minus the excepted keys, minus the two marker keys, then the keys of the
fresh generator snapshot appended with no further filtering and no
deduplication. -/
def relevantKeys (p : SubscriptProxy) (w : Nat) : List String :=
  (((keysOf p.keyValueMap).filter
      (fun key => !(p.options.except.contains key))).filter
      (fun key => !(key == ALL) && !(key == GENFN)))
    ++ keysOf (fromEntries (genSnapshot p w))

/-- The claimed-key arm of the `get` trap (lines 128-135):
`keyValueMap[property] ?? genObject[property]`, evaluated when the
resolved value is a function and `evalFns` is set. -/
def resolveClaimed (p : SubscriptProxy) (w : Nat) (key : String) : Value :=
  let genObject := fromEntries (genSnapshot p w)
  let looked := (lookupOwn p.keyValueMap key).getD Value.undef
  let value := bif isNullish looked then (lookupOwn genObject key).getD Value.undef else looked
  bif p.options.evalFns && isFn value then callFn p.origChain value key else value

/-- The unclaimed-key arm of the `get` trap (lines 137-139): call the
`'*'` handler when it is truthy, else the trap returns `undefined`. -/
def wildcardDispatch (p : SubscriptProxy) (key : String) : Value :=
  match lookupOwn p.keyValueMap ALL with
  | some h => bif truthy h then callFn p.origChain h key else Value.undef
  | none => Value.undef

/-- The `get` trap (lines 124-139). -/
def getTrap (p : SubscriptProxy) (w : Nat) (key : String) : Value :=
  bif (relevantKeys p w).contains key then resolveClaimed p w key
  else wildcardDispatch p key

/-- The `has` trap (lines 144-147): claimed keys, else `Reflect.has` on
the proxied prototype, i.e. on the original chain. -/
def hasTrap (p : SubscriptProxy) (w : Nat) (key : String) : Bool :=
  (relevantKeys p w).contains key || chainHas p.origChain key

/-- The `ownKeys` trap (lines 152-155): exactly the relevant keys. -/
def ownKeysTrap (p : SubscriptProxy) (w : Nat) : List String :=
  relevantKeys p w

/-- Reading `target.key` after installation: an own property of the
target wins outright (JS consults the prototype, i.e. the proxy, only on
an own-property miss); otherwise the proxy's `get` trap fully determines
the result — a trap return of `undefined` IS the result of the access,
the engine does not keep walking past a proxy whose trap answered. -/
def readProp (p : SubscriptProxy) (w : Nat) (key : String) : Value :=
  match lookupOwn p.targetOwn key with
  | some v => v
  | none => getTrap p w key

/-- `key in target` after installation: own property, else the proxy's
`has` trap. -/
def hasProp (p : SubscriptProxy) (w : Nat) (key : String) : Bool :=
  (lookupOwn p.targetOwn key).isSome || hasTrap p w key

/-- The four source shapes `applyTo` distinguishes (lines 80-90), as the
tagged classifier result: an array of 2-element pairs, a callable, an
iterable object whose first yield is a pair (stored as its bound
`Symbol.iterator`, a generator function), any other object, or an
unrecognized input. -/
inductive SourceInput where
  | entries (l : List (String × Value))
  | fnInput (table : List (String × Value)) (dflt : Value)
  | entryIterator (g : Nat → List (String × Value))
  | objInput (l : List (String × Value))
  | other

/-- Normalization of the source input into the key/value map: `entries`
via `Object.fromEntries` (line 81), a callable into the `'*'` slot
(line 84), an iterable's bound iterator into the `'**'` slot (line 87),
a plain object copied entry-wise via `Object.assign` (line 90), anything
else left empty. -/
def normalizeSource : SourceInput → List (String × Value)
  | .entries l => fromEntries l
  | .fnInput table dflt => [(ALL, Value.fn table dflt)]
  | .entryIterator g => [(GENFN, Value.genFn g)]
  | .objInput l => fromEntries l
  | .other => []

/-- The fallback step (lines 92-108): wrap a callable `'*'` slot in the
retry closure, otherwise overwrite (or create) the `'*'` slot with bound
`Reflect.get`. -/
def installFallback (kvm : List (String × Value)) : List (String × Value) :=
  match lookupOwn kvm ALL with
  | some h =>
    bif isFn h then setEntry kvm ALL (Value.wrappedFn h)
    else setEntry kvm ALL Value.reflectGetFn
  | none => setEntry kvm ALL Value.reflectGetFn

/-- `SubscriptProxy.applyTo` (lines 68-161): normalize the source, apply
the fallback step when `options.fallback` is set, build the instance and
install the proxy in front of the target's original chain. -/
def applyTo (targetOwn : PlainObj) (origChain : List PlainObj)
    (input : SourceInput) (opts : Options) : SubscriptProxy :=
  let kvm := normalizeSource input
  let kvm2 := bif opts.fallback then installFallback kvm else kvm
  { targetOwn := targetOwn, origChain := origChain, keyValueMap := kvm2, options := opts }

/-- The literal contribution to the relevant keys: own keys of the
key/value map minus the excepted keys, minus the marker keys. -/
def litKeys (kvm : List (String × Value)) (ex : List String) : List String :=
  ((keysOf kvm).filter
      (fun key => !(ex.contains key))).filter
      (fun key => !(key == ALL) && !(key == GENFN))

/-- The generator function sitting in the `'**'` slot, if any. -/
def genOf (kvm : List (String × Value)) : Option (Nat → List (String × Value)) :=
  match lookupOwn kvm GENFN with
  | some (Value.genFn g) => some g
  | _ => none

theorem relevantKeys_split (p : SubscriptProxy) (w : Nat) :
    relevantKeys p w
      = litKeys p.keyValueMap p.options.except
        ++ keysOf (fromEntries (genSnapshot p w)) := rfl

theorem applyTo_keyValueMap (t : PlainObj) (c : List PlainObj) (i : SourceInput)
    (o : Options) :
    (applyTo t c i o).keyValueMap
      = bif o.fallback then installFallback (normalizeSource i) else normalizeSource i := rfl

theorem applyTo_options (t : PlainObj) (c : List PlainObj) (i : SourceInput) (o : Options) :
    (applyTo t c i o).options = o := rfl

theorem applyTo_origChain (t : PlainObj) (c : List PlainObj) (i : SourceInput) (o : Options) :
    (applyTo t c i o).origChain = c := rfl

theorem applyTo_targetOwn (t : PlainObj) (c : List PlainObj) (i : SourceInput) (o : Options) :
    (applyTo t c i o).targetOwn = t := rfl

theorem contains_eq_true_iff (l : List String) (a : String) :
    l.contains a = true ↔ a ∈ l := List.elem_iff

theorem contains_eq_false_iff (l : List String) (a : String) :
    l.contains a = false ↔ ¬ a ∈ l := by
  rw [← contains_eq_true_iff]
  cases l.contains a <;> simp

theorem contains_append_eq_false (l1 l2 : List String) (a : String)
    (h1 : l1.contains a = false) (h2 : l2.contains a = false) :
    (l1 ++ l2).contains a = false := by
  rw [contains_eq_false_iff] at h1 h2 ⊢
  simp only [List.mem_append]
  tauto

theorem lookupOwn_map_overwrite (m : List (String × Value)) (k k' : String) (v : Value)
    (h : k' ≠ k) :
    lookupOwn (m.map (fun p => bif p.1 == k then (k, v) else p)) k' = lookupOwn m k' := by
  induction m with
  | nil => rfl
  | cons a rest ih =>
    obtain ⟨ak, av⟩ := a
    simp only [List.map_cons]
    cases hk : ak == k
    · simp only [cond_false, lookupOwn]
      cases he : ak == k'
      · simp only [cond_false]; exact ih
      · simp only [cond_true]
    · have hk2 : ak = k := beq_iff_eq.mp hk
      have h2 : (k == k') = false := beq_eq_false_iff_ne.mpr (fun hh => h hh.symm)
      have h3 : (ak == k') = false := by rw [hk2]; exact h2
      simp only [cond_true, lookupOwn, h2, h3, cond_false]
      exact ih

theorem lookupOwn_append (m1 m2 : List (String × Value)) (k : String) :
    lookupOwn (m1 ++ m2) k
      = match lookupOwn m1 k with
        | some v => some v
        | none => lookupOwn m2 k := by
  induction m1 with
  | nil => rfl
  | cons a rest ih =>
    obtain ⟨ak, av⟩ := a
    simp only [List.cons_append, lookupOwn]
    cases he : ak == k
    · simp only [cond_false]; exact ih
    · simp only [cond_true]

theorem lookupOwn_setEntry_ne (m : List (String × Value)) (k k' : String) (v : Value)
    (h : k' ≠ k) : lookupOwn (setEntry m k v) k' = lookupOwn m k' := by
  unfold setEntry
  cases hh : hasKey m k
  · simp only [cond_false, lookupOwn_append]
    have h3 : (k == k') = false := beq_eq_false_iff_ne.mpr (fun hh2 => h hh2.symm)
    simp only [lookupOwn, h3, cond_false]
    cases lookupOwn m k' <;> rfl
  · simp only [cond_true]
    exact lookupOwn_map_overwrite m k k' v h

theorem lookupOwn_eq_none_of_hasKey_false (m : List (String × Value)) (k : String)
    (h : hasKey m k = false) : lookupOwn m k = none := by
  induction m with
  | nil => rfl
  | cons a rest ih =>
    obtain ⟨ak, av⟩ := a
    simp only [hasKey, List.any_cons, Bool.or_eq_false_iff] at h
    simp only [lookupOwn, h.1, cond_false]
    exact ih h.2

theorem lookupOwn_map_overwrite_self (m : List (String × Value)) (k : String) (v : Value)
    (hh : hasKey m k = true) :
    lookupOwn (m.map (fun p => bif p.1 == k then (k, v) else p)) k = some v := by
  induction m with
  | nil => simp [hasKey] at hh
  | cons a rest ih =>
    obtain ⟨ak, av⟩ := a
    cases he : ak == k
    · have hr : hasKey rest k = true := by
        simp only [hasKey, List.any_cons, he, Bool.false_or] at hh
        exact hh
      simp only [List.map_cons, he, cond_false, lookupOwn]
      exact ih hr
    · simp only [List.map_cons, he, cond_true, lookupOwn, beq_self_eq_true]

theorem lookupOwn_setEntry_self (m : List (String × Value)) (k : String) (v : Value) :
    lookupOwn (setEntry m k v) k = some v := by
  unfold setEntry
  cases hh : hasKey m k
  · simp only [cond_false, lookupOwn_append,
      lookupOwn_eq_none_of_hasKey_false m k hh]
    simp [lookupOwn]
  · simp only [cond_true]
    exact lookupOwn_map_overwrite_self m k v hh

theorem keysOf_map_overwrite (m : List (String × Value)) (k : String) (v : Value) :
    keysOf (m.map (fun p => bif p.1 == k then (k, v) else p)) = keysOf m := by
  induction m with
  | nil => rfl
  | cons a rest ih =>
    obtain ⟨ak, av⟩ := a
    cases he : ak == k
    · simp only [keysOf, List.map_cons] at ih ⊢
      simp only [he, cond_false]
      rw [ih]
    · have hk2 : ak = k := beq_iff_eq.mp he
      simp only [keysOf, List.map_cons] at ih ⊢
      simp only [he, cond_true]
      rw [ih, hk2]

theorem litKeys_setEntry_ALL (kvm : List (String × Value)) (ex : List String) (v : Value) :
    litKeys (setEntry kvm ALL v) ex = litKeys kvm ex := by
  unfold setEntry
  cases hh : hasKey kvm ALL
  · simp only [cond_false]
    unfold litKeys keysOf
    rw [List.map_append, List.filter_append, List.filter_append]
    have hsing : List.map Prod.fst [(ALL, v)] = [ALL] := rfl
    rw [hsing]
    cases hc : ex.contains ALL
    · simp [hc, ALL]
    · simp [hc]
  · simp only [cond_true]
    unfold litKeys
    rw [keysOf_map_overwrite]

theorem litKeys_installFallback (kvm : List (String × Value)) (ex : List String) :
    litKeys (installFallback kvm) ex = litKeys kvm ex := by
  unfold installFallback
  cases hl : lookupOwn kvm ALL with
  | none => exact litKeys_setEntry_ALL ..
  | some h =>
    show litKeys (bif isFn h then setEntry kvm ALL (Value.wrappedFn h)
        else setEntry kvm ALL Value.reflectGetFn) ex = litKeys kvm ex
    cases hf : isFn h <;> simp only [cond_true, cond_false] <;>
      exact litKeys_setEntry_ALL ..

theorem lookupOwn_installFallback_ne (kvm : List (String × Value)) (k : String)
    (h : k ≠ ALL) : lookupOwn (installFallback kvm) k = lookupOwn kvm k := by
  unfold installFallback
  cases hl : lookupOwn kvm ALL with
  | none => exact lookupOwn_setEntry_ne kvm ALL k _ h
  | some hv =>
    show lookupOwn (bif isFn hv then setEntry kvm ALL (Value.wrappedFn hv)
        else setEntry kvm ALL Value.reflectGetFn) k = lookupOwn kvm k
    cases hf : isFn hv <;> simp only [cond_true, cond_false] <;>
      exact lookupOwn_setEntry_ne kvm ALL k _ h

theorem lookupOwn_installFallback_ALL_none (kvm : List (String × Value))
    (h : lookupOwn kvm ALL = none) :
    lookupOwn (installFallback kvm) ALL = some Value.reflectGetFn := by
  unfold installFallback
  rw [h]
  exact lookupOwn_setEntry_self ..

theorem lookupOwn_installFallback_ALL_fn (kvm : List (String × Value)) (hv : Value)
    (h : lookupOwn kvm ALL = some hv) (hf : isFn hv = true) :
    lookupOwn (installFallback kvm) ALL = some (Value.wrappedFn hv) := by
  unfold installFallback
  simp only [h, hf, cond_true]
  exact lookupOwn_setEntry_self ..

theorem genOf_installFallback (kvm : List (String × Value)) :
    genOf (installFallback kvm) = genOf kvm := by
  unfold genOf
  rw [lookupOwn_installFallback_ne kvm GENFN (by decide)]

theorem genSnapshot_eq_genOf (p : SubscriptProxy) (w : Nat) :
    genSnapshot p w
      = match genOf p.keyValueMap with
        | some g => g w
        | none => [] := by
  unfold genSnapshot genOf
  cases hl : lookupOwn p.keyValueMap GENFN with
  | none => rfl
  | some v => cases v <;> rfl

theorem genSnapshot_eq_nil (p : SubscriptProxy) (w : Nat)
    (h : genOf p.keyValueMap = none) : genSnapshot p w = [] := by
  rw [genSnapshot_eq_genOf, h]

theorem genSnapshot_eq_run (p : SubscriptProxy) (w : Nat) (g : Nat → List (String × Value))
    (h : lookupOwn p.keyValueMap GENFN = some (Value.genFn g)) :
    genSnapshot p w = g w := by
  unfold genSnapshot
  rw [h]

theorem mem_keysOf_of_lookupOwn (m : List (String × Value)) (k : String) (v : Value)
    (h : lookupOwn m k = some v) : k ∈ keysOf m := by
  induction m with
  | nil => simp [lookupOwn] at h
  | cons a rest ih =>
    obtain ⟨ak, av⟩ := a
    cases he : ak == k
    · simp only [lookupOwn, he, cond_false] at h
      simp only [keysOf, List.map_cons, List.mem_cons]
      exact Or.inr (ih h)
    · have : ak = k := beq_iff_eq.mp he
      simp [keysOf, this]

theorem not_mem_keysOf_of_lookupOwn_none (m : List (String × Value)) (k : String)
    (h : lookupOwn m k = none) : ¬ k ∈ keysOf m := by
  induction m with
  | nil => simp [keysOf]
  | cons a rest ih =>
    obtain ⟨ak, av⟩ := a
    cases he : ak == k
    · simp only [lookupOwn, he, cond_false] at h
      simp only [keysOf, List.map_cons, List.mem_cons]
      rintro (h1 | h2)
      · exact (beq_eq_false_iff_ne.mp he) h1.symm
      · exact ih h h2
    · simp only [lookupOwn, he, cond_true] at h
      exact Option.noConfusion h

theorem mem_litKeys_iff (kvm : List (String × Value)) (ex : List String) (K : String) :
    K ∈ litKeys kvm ex
      ↔ K ∈ keysOf kvm ∧ ex.contains K = false ∧ K ≠ ALL ∧ K ≠ GENFN := by
  simp only [litKeys, List.mem_filter, Bool.and_eq_true, Bool.not_eq_true',
    beq_eq_false_iff_ne]
  tauto

theorem litKeys_not_contains_of_except (kvm : List (String × Value)) (ex : List String)
    (K : String) (h : ex.contains K = true) : (litKeys kvm ex).contains K = false := by
  rw [contains_eq_false_iff]
  intro hm
  rcases (mem_litKeys_iff kvm ex K).mp hm with ⟨-, hc, -, -⟩
  rw [h] at hc
  exact Bool.noConfusion hc

theorem litKeys_not_contains_of_lookup_none (kvm : List (String × Value)) (ex : List String)
    (K : String) (h : lookupOwn kvm K = none) : (litKeys kvm ex).contains K = false := by
  rw [contains_eq_false_iff]
  intro hm
  rcases (mem_litKeys_iff kvm ex K).mp hm with ⟨hk, -, -, -⟩
  exact not_mem_keysOf_of_lookupOwn_none kvm K h hk

theorem litKeys_not_contains_ALL (kvm : List (String × Value)) (ex : List String) :
    (litKeys kvm ex).contains ALL = false := by
  rw [contains_eq_false_iff]
  intro hm
  rcases (mem_litKeys_iff kvm ex ALL).mp hm with ⟨-, -, hA, -⟩
  exact hA rfl

theorem litKeys_not_contains_GENFN (kvm : List (String × Value)) (ex : List String) :
    (litKeys kvm ex).contains GENFN = false := by
  rw [contains_eq_false_iff]
  intro hm
  rcases (mem_litKeys_iff kvm ex GENFN).mp hm with ⟨-, -, -, hG⟩
  exact hG rfl

theorem relevantKeys_contains_of_lit (p : SubscriptProxy) (w : Nat) (K : String)
    (h : K ∈ litKeys p.keyValueMap p.options.except) :
    (relevantKeys p w).contains K = true := by
  rw [contains_eq_true_iff, relevantKeys_split]
  exact List.mem_append_left _ h

theorem relevantKeys_contains_of_gen (p : SubscriptProxy) (w : Nat) (K : String)
    (h : K ∈ keysOf (fromEntries (genSnapshot p w))) :
    (relevantKeys p w).contains K = true := by
  rw [contains_eq_true_iff, relevantKeys_split]
  exact List.mem_append_right _ h

theorem relevantKeys_contains_false (p : SubscriptProxy) (w : Nat) (K : String)
    (h1 : (litKeys p.keyValueMap p.options.except).contains K = false)
    (h2 : (keysOf (fromEntries (genSnapshot p w))).contains K = false) :
    (relevantKeys p w).contains K = false := by
  rw [relevantKeys_split]
  exact contains_append_eq_false _ _ _ h1 h2

theorem getTrap_claimed (p : SubscriptProxy) (w : Nat) (key : String)
    (h : (relevantKeys p w).contains key = true) :
    getTrap p w key = resolveClaimed p w key := by
  unfold getTrap
  rw [h]
  rfl

theorem getTrap_miss (p : SubscriptProxy) (w : Nat) (key : String)
    (h : (relevantKeys p w).contains key = false) :
    getTrap p w key = wildcardDispatch p key := by
  unfold getTrap
  rw [h]
  rfl

theorem readProp_own (p : SubscriptProxy) (w : Nat) (key : String) (v : Value)
    (h : lookupOwn p.targetOwn key = some v) : readProp p w key = v := by
  unfold readProp
  rw [h]

theorem readProp_miss (p : SubscriptProxy) (w : Nat) (key : String)
    (h : lookupOwn p.targetOwn key = none) : readProp p w key = getTrap p w key := by
  unfold readProp
  rw [h]

theorem isNullish_true_iff (v : Value) :
    isNullish v = true ↔ v = Value.undef ∨ v = Value.null := by
  cases v <;> simp [isNullish]

example :
    readProp
      (applyTo [("name", Value.str "Cocacola")] []
        (SourceInput.entries
          [("type", Value.str "drink"), ("hasCalories", Value.fn [] (Value.bool true))])
        {}) 0 "type"
      = Value.str "drink" := rfl

example :
    readProp
      (applyTo [("name", Value.str "Cocacola")] []
        (SourceInput.entries
          [("type", Value.str "drink"), ("hasCalories", Value.fn [] (Value.bool true))])
        {}) 0 "hasCalories"
      = Value.bool true := rfl

example :
    readProp
      (applyTo [("name", Value.str "Cocacola")] []
        (SourceInput.entries
          [("type", Value.str "drink"), ("hasCalories", Value.fn [] (Value.bool true))])
        {}) 0 "name"
      = Value.str "Cocacola" := rfl

example :
    readProp (applyTo [] [[("deep", Value.str "treasure")]]
      (SourceInput.objInput [("a", Value.num 1)]) { fallback := false }) 0 "deep"
      = Value.undef := rfl

example :
    readProp (applyTo [] [[("deep", Value.str "treasure")]]
      (SourceInput.objInput [("a", Value.num 1)]) {}) 0 "deep"
      = Value.str "treasure" := rfl

theorem resolveClaimed_literal (p : SubscriptProxy) (w : Nat) (K : String) (v : Value)
    (hKv : lookupOwn p.keyValueMap K = some v)
    (hgen : genOf p.keyValueMap = none) :
    resolveClaimed p w K
      = (bif p.options.evalFns && isFn (bif isNullish v then Value.undef else v)
          then callFn p.origChain (bif isNullish v then Value.undef else v) K
          else (bif isNullish v then Value.undef else v)) := by
  unfold resolveClaimed
  rw [genSnapshot_eq_nil p w hgen, hKv]
  rfl

theorem readProp_literal_claimed (tOwn : PlainObj) (chain : List PlainObj)
    (l : List (String × Value)) (input : SourceInput) (opts : Options)
    (K : String) (v : Value) (w : Nat)
    (hni : normalizeSource input = fromEntries l)
    (hKv : lookupOwn (fromEntries l) K = some v)
    (hexc : opts.except.contains K = false)
    (hA : K ≠ ALL) (hG : K ≠ GENFN)
    (hnotOwn : lookupOwn tOwn K = none)
    (hgen : genOf (fromEntries l) = none) :
    readProp (applyTo tOwn chain input opts) w K
      = (bif opts.evalFns && isFn (bif isNullish v then Value.undef else v)
          then callFn chain (bif isNullish v then Value.undef else v) K
          else (bif isNullish v then Value.undef else v)) := by
  have hkvm : lookupOwn (applyTo tOwn chain input opts).keyValueMap K = some v := by
    rw [applyTo_keyValueMap, hni]
    cases hf : opts.fallback
    · simp only [cond_false]
      exact hKv
    · simp only [cond_true]
      rw [lookupOwn_installFallback_ne _ _ hA]
      exact hKv
  have hgen2 : genOf (applyTo tOwn chain input opts).keyValueMap = none := by
    rw [applyTo_keyValueMap, hni]
    cases hf : opts.fallback
    · simp only [cond_false]
      exact hgen
    · simp only [cond_true]
      rw [genOf_installFallback]
      exact hgen
  have hcont : (relevantKeys (applyTo tOwn chain input opts) w).contains K = true := by
    apply relevantKeys_contains_of_lit
    rw [applyTo_keyValueMap, applyTo_options, hni]
    have hmem : K ∈ litKeys (fromEntries l) opts.except :=
      (mem_litKeys_iff ..).mpr ⟨mem_keysOf_of_lookupOwn _ _ _ hKv, hexc, hA, hG⟩
    cases hf : opts.fallback
    · simp only [cond_false]
      exact hmem
    · simp only [cond_true]
      rw [litKeys_installFallback]
      exact hmem
  rw [readProp_miss _ _ _ hnotOwn, getTrap_claimed _ _ _ hcont,
    resolveClaimed_literal _ _ _ _ hkvm hgen2]
  rfl

theorem getTrap_unclaimed_default (p : SubscriptProxy) (w : Nat) (K : String)
    (hcont : (relevantKeys p w).contains K = false)
    (hALL : lookupOwn p.keyValueMap ALL = some Value.reflectGetFn) :
    getTrap p w K = chainLookup p.origChain K := by
  rw [getTrap_miss p w K hcont]
  unfold wildcardDispatch
  rw [hALL]
  rfl

/-- C1 is false as stated: under the default options, a literal entry
whose mapped value is `null` reads back as `undefined`, not as the
mapped value (the `??` in the `get` trap collapses the stored `null`
into the generator-snapshot branch, which is empty). -/
theorem c1_counterexample :
    readProp (applyTo [("name", Value.str "Cocacola")] []
        (SourceInput.objInput [("x", Value.null)]) {}) 0 "x" = Value.undef
      ∧ Value.undef ≠ Value.null
      ∧ lookupOwn (fromEntries [("x", Value.null)]) "x" = some Value.null :=
  ⟨rfl, fun h => Value.noConfusion h, rfl⟩

/-- C1 (amended): for a target and a literal mapping (pair-list or plain
object, no generator entry) with default options, every mapped key that
is disjoint from the target's own keys, is not a reserved marker key and
whose mapped value is not the null sentinel reads on the target as the
mapped value, with a callable value evaluated; and every original own
property of the target is still readable with its original value. -/
theorem c1_literal_install_reads
    (tOwn : PlainObj) (chain : List PlainObj) (l : List (String × Value))
    (input : SourceInput) (K : String) (v : Value) (w : Nat)
    (hinput : input = SourceInput.entries l ∨ input = SourceInput.objInput l)
    (hKv : lookupOwn (fromEntries l) K = some v)
    (hnn : v ≠ Value.null)
    (hA : K ≠ ALL) (hG : K ≠ GENFN)
    (hgen : genOf (fromEntries l) = none)
    (hnotOwn : lookupOwn tOwn K = none) :
    readProp (applyTo tOwn chain input {}) w K
        = (bif isFn v then callFn chain v K else v)
      ∧ ∀ (k : String) (ov : Value), lookupOwn tOwn k = some ov →
          readProp (applyTo tOwn chain input {}) w k = ov := by
  constructor
  · have hni : normalizeSource input = fromEntries l := by
      rcases hinput with h | h <;> rw [h] <;> rfl
    have h := readProp_literal_claimed tOwn chain l input {} K v w hni hKv rfl hA hG
      hnotOwn hgen
    rw [h]
    cases hv : isNullish v
    · rfl
    · rcases (isNullish_true_iff v).mp hv with rfl | rfl
      · rfl
      · exact absurd rfl hnn
  · intro k ov hov
    exact readProp_own _ _ _ _ hov

theorem c1_witness :
    readProp (applyTo [("name", Value.str "Cocacola")] []
        (SourceInput.entries
          [("type", Value.str "drink"), ("hasCalories", Value.fn [] (Value.bool true))])
        {}) 0 "type" = Value.str "drink"
      ∧ readProp (applyTo [("name", Value.str "Cocacola")] []
          (SourceInput.entries
            [("type", Value.str "drink"), ("hasCalories", Value.fn [] (Value.bool true))])
          {}) 0 "hasCalories" = Value.bool true
      ∧ readProp (applyTo [("name", Value.str "Cocacola")] []
          (SourceInput.entries
            [("type", Value.str "drink"), ("hasCalories", Value.fn [] (Value.bool true))])
          {}) 0 "name" = Value.str "Cocacola" := by
  refine ⟨?_, ?_, ?_⟩
  · exact (c1_literal_install_reads [("name", Value.str "Cocacola")] []
      [("type", Value.str "drink"), ("hasCalories", Value.fn [] (Value.bool true))]
      _ "type" (Value.str "drink") 0 (Or.inl rfl) rfl
      (fun h => Value.noConfusion h) (by decide) (by decide) rfl rfl).1
  · exact (c1_literal_install_reads [("name", Value.str "Cocacola")] []
      [("type", Value.str "drink"), ("hasCalories", Value.fn [] (Value.bool true))]
      _ "hasCalories" (Value.fn [] (Value.bool true)) 0 (Or.inl rfl) rfl
      (fun h => Value.noConfusion h) (by decide) (by decide) rfl rfl).1
  · exact (c1_literal_install_reads [("name", Value.str "Cocacola")] []
      [("type", Value.str "drink"), ("hasCalories", Value.fn [] (Value.bool true))]
      _ "type" (Value.str "drink") 0 (Or.inl rfl) rfl
      (fun h => Value.noConfusion h) (by decide) (by decide) rfl rfl).2
      "name" (Value.str "Cocacola") rfl

/-- C2 is false as stated: a key listed in `excludedKeys` IS resolved by
a user-supplied wildcard handler. Excluding `"p"` while installing a
wildcard that answers `"p"` yields the wildcard's answer, not the value
found by native inherited lookup deeper in the original chain. -/
theorem c2_counterexample :
    readProp (applyTo [] [[("p", Value.str "inherited")]]
        (SourceInput.fnInput [("p", Value.str "wild")] Value.undef)
        { except := ["p"] }) 0 "p" = Value.str "wild"
      ∧ chainLookup [[("p", Value.str "inherited")]] "p" = Value.str "inherited"
      ∧ Value.str "wild" ≠ Value.str "inherited" := by
  refine ⟨rfl, rfl, ?_⟩
  intro h
  injection h with h2
  exact absurd h2 (by decide)

/-- C2 (amended): exclusion wins over the literal mapping only. For a
layer installed from a literal mapping with no user wildcard entry and
no generator entry, under default fallback, reading an excluded key
falls through to native inherited lookup on the original chain. -/
theorem c2_excluded_key_falls_through
    (tOwn : PlainObj) (chain : List PlainObj) (l : List (String × Value))
    (input : SourceInput) (ex : List String) (K : String) (w : Nat)
    (hinput : input = SourceInput.entries l ∨ input = SourceInput.objInput l)
    (hexc : ex.contains K = true)
    (hstar : lookupOwn (fromEntries l) ALL = none)
    (hgen : genOf (fromEntries l) = none)
    (hnotOwn : lookupOwn tOwn K = none) :
    readProp (applyTo tOwn chain input { except := ex }) w K = chainLookup chain K := by
  have hni : normalizeSource input = fromEntries l := by
    rcases hinput with h | h <;> rw [h] <;> rfl
  have hkvm : (applyTo tOwn chain input { except := ex }).keyValueMap
      = installFallback (fromEntries l) := by
    rw [applyTo_keyValueMap, hni]
    rfl
  have hsnap : genSnapshot (applyTo tOwn chain input { except := ex }) w = [] := by
    apply genSnapshot_eq_nil
    rw [hkvm, genOf_installFallback]
    exact hgen
  have hcont :
      (relevantKeys (applyTo tOwn chain input { except := ex }) w).contains K = false := by
    apply relevantKeys_contains_false
    · rw [applyTo_options, hkvm, litKeys_installFallback]
      exact litKeys_not_contains_of_except _ _ _ hexc
    · rw [hsnap]
      rfl
  rw [readProp_miss _ _ _ hnotOwn]
  exact getTrap_unclaimed_default _ _ _ hcont
    (by rw [hkvm]; exact lookupOwn_installFallback_ALL_none _ hstar)

theorem c2_witness :
    (["prop2"] : List String).contains "prop2" = true
      ∧ readProp (applyTo [] []
          (SourceInput.objInput
            [("prop1", Value.str "value1"), ("prop2", Value.str "value2"),
              ("prop3", Value.str "value3")])
          { except := ["prop2"] }) 0 "prop2" = Value.undef := by
  refine ⟨rfl, ?_⟩
  exact c2_excluded_key_falls_through [] []
    [("prop1", Value.str "value1"), ("prop2", Value.str "value2"),
      ("prop3", Value.str "value3")]
    _ ["prop2"] "prop2" 0 (Or.inr rfl) rfl rfl rfl rfl

/-- C3: with fallback enabled, a user wildcard handler answering the
undefined sentinel for an unclaimed key defers to native inherited
lookup on the original chain; and with no user wildcard at all the
installed `'*'` slot is exactly the bound default inherited-lookup
function `Reflect.get`. -/
theorem c3_fallback_wildcard_composition :
    (∀ (tOwn : PlainObj) (chain : List PlainObj) (table : List (String × Value))
        (dflt : Value) (K : String) (w : Nat),
        lookupOwn tOwn K = none →
        applyTable table dflt K = Value.undef →
        readProp (applyTo tOwn chain (SourceInput.fnInput table dflt) {}) w K
          = chainLookup chain K)
      ∧ (∀ (tOwn : PlainObj) (chain : List PlainObj) (l : List (String × Value)),
          lookupOwn (fromEntries l) ALL = none →
          lookupOwn (applyTo tOwn chain (SourceInput.objInput l) {}).keyValueMap ALL
            = some Value.reflectGetFn) := by
  constructor
  · intro tOwn chain table dflt K w hown hud
    have hcont :
        (relevantKeys (applyTo tOwn chain (SourceInput.fnInput table dflt) {}) w).contains K
          = false := rfl
    rw [readProp_miss _ _ _ hown, getTrap_miss _ _ _ hcont]
    unfold wildcardDispatch
    show (match applyTable table dflt K with
          | Value.undef => chainLookup chain K
          | r => r) = chainLookup chain K
    rw [hud]
  · intro tOwn chain l hstar
    have hkvm : (applyTo tOwn chain (SourceInput.objInput l) {}).keyValueMap
        = installFallback (fromEntries l) := rfl
    rw [hkvm]
    exact lookupOwn_installFallback_ALL_none _ hstar

theorem c3_witness :
    applyTable [("missing", Value.str "custom fallback")] Value.undef "other" = Value.undef
      ∧ readProp (applyTo [] [[("other", Value.str "deeper")]]
          (SourceInput.fnInput [("missing", Value.str "custom fallback")] Value.undef)
          {}) 0 "other" = Value.str "deeper"
      ∧ lookupOwn
          (applyTo [] [] (SourceInput.objInput [("a", Value.num 1)]) {}).keyValueMap ALL
          = some Value.reflectGetFn := by
  refine ⟨rfl, ?_, ?_⟩
  · exact c3_fallback_wildcard_composition.1 [] [[("other", Value.str "deeper")]]
      [("missing", Value.str "custom fallback")] Value.undef "other" 0 rfl rfl
  · exact c3_fallback_wildcard_composition.2 [] [] [("a", Value.num 1)] rfl

/-- C4 is false as stated: with fallback disabled and no wildcard, a key
defined deeper in the target's original prototype chain does NOT remain
readable — the trap's `undefined` answer is final, because a proxy `get`
trap fully handles the lookup and the engine does not continue walking
past it. -/
theorem c4_counterexample :
    getTrap (applyTo [] [[("deep", Value.str "treasure")]]
        (SourceInput.objInput [("a", Value.num 1)]) { fallback := false }) 0 "deep"
        = Value.undef
      ∧ readProp (applyTo [] [[("deep", Value.str "treasure")]]
          (SourceInput.objInput [("a", Value.num 1)]) { fallback := false }) 0 "deep"
          = Value.undef
      ∧ chainLookup [[("deep", Value.str "treasure")]] "deep" = Value.str "treasure"
      ∧ Value.undef ≠ Value.str "treasure" :=
  ⟨rfl, rfl, rfl, fun h => Value.noConfusion h⟩

/-- C4 (amended): with fallback disabled and no wildcard supplied, a
get-trap miss returns `undefined` from the trap, and the whole property
access therefore yields `undefined` — values defined deeper in the
original chain are not reachable through the layer on a trap miss. -/
theorem c4_no_fallback_miss_is_final
    (tOwn : PlainObj) (chain : List PlainObj) (l : List (String × Value))
    (input : SourceInput) (K : String) (w : Nat)
    (hinput : input = SourceInput.entries l ∨ input = SourceInput.objInput l)
    (hmiss : lookupOwn (fromEntries l) K = none)
    (hstar : lookupOwn (fromEntries l) ALL = none)
    (hgen : genOf (fromEntries l) = none)
    (hnotOwn : lookupOwn tOwn K = none) :
    getTrap (applyTo tOwn chain input { fallback := false }) w K = Value.undef
      ∧ readProp (applyTo tOwn chain input { fallback := false }) w K = Value.undef := by
  have hni : normalizeSource input = fromEntries l := by
    rcases hinput with h | h <;> rw [h] <;> rfl
  have hkvm : (applyTo tOwn chain input { fallback := false }).keyValueMap
      = fromEntries l := by
    rw [applyTo_keyValueMap, hni]
    rfl
  have hcont :
      (relevantKeys (applyTo tOwn chain input { fallback := false }) w).contains K
        = false := by
    apply relevantKeys_contains_false
    · rw [hkvm]
      exact litKeys_not_contains_of_lookup_none _ _ _ hmiss
    · rw [genSnapshot_eq_nil _ w (by rw [hkvm]; exact hgen)]
      rfl
  have hget : getTrap (applyTo tOwn chain input { fallback := false }) w K = Value.undef := by
    rw [getTrap_miss _ _ _ hcont]
    unfold wildcardDispatch
    rw [hkvm, hstar]
  exact ⟨hget, by rw [readProp_miss _ _ _ hnotOwn]; exact hget⟩

theorem c4_witness :
    chainLookup [[("inherited", Value.str "fromChain")]] "inherited" = Value.str "fromChain"
      ∧ getTrap (applyTo [] [[("inherited", Value.str "fromChain")]]
          (SourceInput.entries [("a", Value.num 1)]) { fallback := false }) 0 "inherited"
          = Value.undef
      ∧ readProp (applyTo [] [[("inherited", Value.str "fromChain")]]
          (SourceInput.entries [("a", Value.num 1)]) { fallback := false }) 0 "inherited"
          = Value.undef := by
  refine ⟨rfl, ?_, ?_⟩
  · exact (c4_no_fallback_miss_is_final [] [[("inherited", Value.str "fromChain")]]
      [("a", Value.num 1)] _ "inherited" 0 (Or.inl rfl) rfl rfl rfl rfl).1
  · exact (c4_no_fallback_miss_is_final [] [[("inherited", Value.str "fromChain")]]
      [("a", Value.num 1)] _ "inherited" 0 (Or.inl rfl) rfl rfl rfl rfl).2

/-- C5: relevant keys are recomputed with a fresh generator run on every
trap call, never cached: at any world `w`, a key the live iterable
yields at `w` is enumerated, reported present and read with the value of
that world's snapshot — so mutating the backing iterable between two
accesses changes what the very next access returns. -/
theorem c5_live_generator_reread
    (tOwn : PlainObj) (chain : List PlainObj) (g : Nat → List (String × Value))
    (K : String) (v : Value) (w : Nat)
    (hnotOwn : lookupOwn tOwn K = none)
    (hA : K ≠ ALL) (hG : K ≠ GENFN)
    (hv : lookupOwn (fromEntries (g w)) K = some v) :
    (ownKeysTrap (applyTo tOwn chain (SourceInput.entryIterator g) {}) w).contains K = true
      ∧ hasTrap (applyTo tOwn chain (SourceInput.entryIterator g) {}) w K = true
      ∧ readProp (applyTo tOwn chain (SourceInput.entryIterator g) {}) w K
          = (bif isFn v then callFn chain v K else v) := by
  have hsnap : genSnapshot (applyTo tOwn chain (SourceInput.entryIterator g) {}) w = g w :=
    genSnapshot_eq_run _ _ _ rfl
  have hmem :
      K ∈ keysOf (fromEntries (genSnapshot (applyTo tOwn chain
        (SourceInput.entryIterator g) {}) w)) := by
    rw [hsnap]
    exact mem_keysOf_of_lookupOwn _ _ _ hv
  have hcont := relevantKeys_contains_of_gen _ w K hmem
  refine ⟨hcont, ?_, ?_⟩
  · unfold hasTrap
    rw [hcont]
    rfl
  · rw [readProp_miss _ _ _ hnotOwn, getTrap_claimed _ _ _ hcont]
    have hlk : lookupOwn (applyTo tOwn chain
        (SourceInput.entryIterator g) {}).keyValueMap K = none := by
      have h1 : (GENFN == K) = false := beq_eq_false_iff_ne.mpr (fun hh => hG hh.symm)
      have h2 : (ALL == K) = false := beq_eq_false_iff_ne.mpr (fun hh => hA hh.symm)
      show lookupOwn [(GENFN, Value.genFn g), (ALL, Value.reflectGetFn)] K = none
      simp [lookupOwn, h1, h2]
    unfold resolveClaimed
    rw [hsnap, hlk]
    simp only [hv]
    rfl

theorem c5_witness :
    readProp (applyTo [] [] (SourceInput.entryIterator
        (fun w => bif w == 0 then [("PORT", Value.str "3000")]
          else [("PORT", Value.str "4000")])) {}) 0 "PORT" = Value.str "3000"
      ∧ readProp (applyTo [] [] (SourceInput.entryIterator
          (fun w => bif w == 0 then [("PORT", Value.str "3000")]
            else [("PORT", Value.str "4000")])) {}) 1 "PORT" = Value.str "4000" := by
  constructor
  · exact (c5_live_generator_reread [] []
      (fun w => bif w == 0 then [("PORT", Value.str "3000")]
        else [("PORT", Value.str "4000")])
      "PORT" (Value.str "3000") 0 rfl (by decide) (by decide) rfl).2.2
  · exact (c5_live_generator_reread [] []
      (fun w => bif w == 0 then [("PORT", Value.str "3000")]
        else [("PORT", Value.str "4000")])
      "PORT" (Value.str "4000") 1 rfl (by decide) (by decide) rfl).2.2

/-- C6 is false as stated in one corner: when an excluded key is both
yielded by the generator source and mapped by the literal source with a
non-nullish value, the key stays in the relevant-key set but the read
resolves to the LITERAL value, not the generator-yielded one (the
literal map is consulted first by `keyValueMap[property] ?? genObject[property]`). -/
theorem c6_counterexample :
    (ownKeysTrap (applyTo [] [] (SourceInput.objInput
        [("a", Value.str "lit"), ("**", Value.genFn (fun _ => [("a", Value.str "gen")]))])
        { except := ["a"] }) 0).contains "a" = true
      ∧ readProp (applyTo [] [] (SourceInput.objInput
          [("a", Value.str "lit"), ("**", Value.genFn (fun _ => [("a", Value.str "gen")]))])
          { except := ["a"] }) 0 "a" = Value.str "lit"
      ∧ Value.str "lit" ≠ Value.str "gen" := by
  refine ⟨rfl, rfl, ?_⟩
  intro h
  injection h with h2
  exact absurd h2 (by decide)

/-- C6 (amended): generator-derived keys bypass exclusion filtering — a
key both excluded and yielded by the generator stays in the relevant-key
set and is resolved inside the layer, never falling through to native
resolution: the read returns the evaluated generator-yielded value when
the literal mapping has no entry for it, and the evaluated literal value
when the literal mapping carries a non-nullish entry. -/
theorem c6_generator_ignores_exclusion :
    (∀ (tOwn : PlainObj) (chain : List PlainObj) (l : List (String × Value))
        (g : Nat → List (String × Value)) (ex : List String) (K : String) (v : Value)
        (w : Nat),
        ex.contains K = true →
        lookupOwn (fromEntries l) GENFN = some (Value.genFn g) →
        lookupOwn (fromEntries (g w)) K = some v →
        lookupOwn (fromEntries l) K = none →
        K ≠ ALL → K ≠ GENFN →
        lookupOwn tOwn K = none →
        (ownKeysTrap (applyTo tOwn chain (SourceInput.objInput l)
            { except := ex }) w).contains K = true
          ∧ readProp (applyTo tOwn chain (SourceInput.objInput l) { except := ex }) w K
            = (bif isFn v then callFn chain v K else v))
      ∧ (∀ (tOwn : PlainObj) (chain : List PlainObj) (l : List (String × Value))
          (g : Nat → List (String × Value)) (ex : List String) (K : String) (lv gv : Value)
          (w : Nat),
          ex.contains K = true →
          lookupOwn (fromEntries l) GENFN = some (Value.genFn g) →
          lookupOwn (fromEntries (g w)) K = some gv →
          lookupOwn (fromEntries l) K = some lv →
          isNullish lv = false →
          K ≠ ALL → K ≠ GENFN →
          lookupOwn tOwn K = none →
          (ownKeysTrap (applyTo tOwn chain (SourceInput.objInput l)
              { except := ex }) w).contains K = true
            ∧ readProp (applyTo tOwn chain (SourceInput.objInput l) { except := ex }) w K
              = (bif isFn lv then callFn chain lv K else lv)) := by
  constructor
  · intro tOwn chain l g ex K v w hexc hgenlk hv hlit hA hG hnotOwn
    have hglk : lookupOwn (applyTo tOwn chain (SourceInput.objInput l)
        { except := ex }).keyValueMap GENFN = some (Value.genFn g) :=
      (lookupOwn_installFallback_ne (fromEntries l) GENFN (by decide)).trans hgenlk
    have hsnap : genSnapshot (applyTo tOwn chain (SourceInput.objInput l)
        { except := ex }) w = g w := genSnapshot_eq_run _ _ _ hglk
    have hmem : K ∈ keysOf (fromEntries (genSnapshot (applyTo tOwn chain
        (SourceInput.objInput l) { except := ex }) w)) := by
      rw [hsnap]
      exact mem_keysOf_of_lookupOwn _ _ _ hv
    have hcont := relevantKeys_contains_of_gen _ w K hmem
    refine ⟨hcont, ?_⟩
    have hlk : lookupOwn (applyTo tOwn chain (SourceInput.objInput l)
        { except := ex }).keyValueMap K = none :=
      (lookupOwn_installFallback_ne (fromEntries l) K hA).trans hlit
    rw [readProp_miss _ _ _ hnotOwn, getTrap_claimed _ _ _ hcont]
    unfold resolveClaimed
    rw [hsnap, hlk]
    simp only [hv]
    rfl
  · intro tOwn chain l g ex K lv gv w hexc hgenlk hv hlit hnn hA hG hnotOwn
    have hglk : lookupOwn (applyTo tOwn chain (SourceInput.objInput l)
        { except := ex }).keyValueMap GENFN = some (Value.genFn g) :=
      (lookupOwn_installFallback_ne (fromEntries l) GENFN (by decide)).trans hgenlk
    have hsnap : genSnapshot (applyTo tOwn chain (SourceInput.objInput l)
        { except := ex }) w = g w := genSnapshot_eq_run _ _ _ hglk
    have hlk : lookupOwn (applyTo tOwn chain (SourceInput.objInput l)
        { except := ex }).keyValueMap K = some lv :=
      (lookupOwn_installFallback_ne (fromEntries l) K hA).trans hlit
    have hmem : K ∈ keysOf (fromEntries (genSnapshot (applyTo tOwn chain
        (SourceInput.objInput l) { except := ex }) w)) := by
      rw [hsnap]
      exact mem_keysOf_of_lookupOwn _ _ _ hv
    have hcont := relevantKeys_contains_of_gen _ w K hmem
    refine ⟨hcont, ?_⟩
    rw [readProp_miss _ _ _ hnotOwn, getTrap_claimed _ _ _ hcont]
    unfold resolveClaimed
    rw [hsnap, hlk]
    simp only [Option.getD_some, hnn, cond_false]
    rfl

theorem c6_witness :
    (["k"] : List String).contains "k" = true
      ∧ (ownKeysTrap (applyTo [] [] (SourceInput.objInput
          [("b", Value.str "x"), ("**", Value.genFn (fun _ => [("k", Value.str "gen")]))])
          { except := ["k"] }) 0).contains "k" = true
      ∧ readProp (applyTo [] [] (SourceInput.objInput
          [("b", Value.str "x"), ("**", Value.genFn (fun _ => [("k", Value.str "gen")]))])
          { except := ["k"] }) 0 "k" = Value.str "gen"
      ∧ readProp (applyTo [] [] (SourceInput.objInput
          [("e", Value.str "lit"), ("**", Value.genFn (fun _ => [("e", Value.str "gen")]))])
          { except := ["e"] }) 0 "e" = Value.str "lit" := by
  refine ⟨rfl, ?_, ?_, ?_⟩
  · exact (c6_generator_ignores_exclusion.1 [] []
      [("b", Value.str "x"), ("**", Value.genFn (fun _ => [("k", Value.str "gen")]))]
      (fun _ => [("k", Value.str "gen")]) ["k"] "k" (Value.str "gen") 0
      rfl rfl rfl rfl (by decide) (by decide) rfl).1
  · exact (c6_generator_ignores_exclusion.1 [] []
      [("b", Value.str "x"), ("**", Value.genFn (fun _ => [("k", Value.str "gen")]))]
      (fun _ => [("k", Value.str "gen")]) ["k"] "k" (Value.str "gen") 0
      rfl rfl rfl rfl (by decide) (by decide) rfl).2
  · exact (c6_generator_ignores_exclusion.2 [] []
      [("e", Value.str "lit"), ("**", Value.genFn (fun _ => [("e", Value.str "gen")]))]
      (fun _ => [("e", Value.str "gen")]) ["e"] "e" (Value.str "lit") (Value.str "gen") 0
      rfl rfl rfl rfl rfl (by decide) (by decide) rfl).2

/-- C7 is false as stated: a generator source that yields the reserved
marker key `'*'` puts `'*'` into the relevant-key set (generator keys
are appended with no marker filtering), so the marker is enumerated by
the `ownKeys` trap and reported present by the `has` trap. -/
theorem c7_counterexample :
    (ownKeysTrap (applyTo [] [] (SourceInput.entryIterator
        (fun _ => [("*", Value.str "v")])) {}) 0).contains "*" = true
      ∧ hasProp (applyTo [] [] (SourceInput.entryIterator
          (fun _ => [("*", Value.str "v")])) {}) 0 "*" = true :=
  ⟨rfl, rfl⟩

/-- C7 (amended): the literal part of the relevant-key computation never
contributes the marker keys `'*'` and `'**'`: whenever the generator
snapshot yields no marker key (in particular for every generator-free
layer), the markers are absent from the relevant-key set and the
enumeration result, the existence trap answers for them exactly as
native inheritance does, and — for a literal layer with default options
and no user wildcard — reading a marker key falls through to native
inherited lookup instead of resolving as a mapped name. -/
theorem c7_markers_not_literally_exposed :
    (∀ (tOwn : PlainObj) (chain : List PlainObj) (input : SourceInput) (opts : Options)
        (w : Nat),
        (keysOf (fromEntries (genSnapshot (applyTo tOwn chain input opts) w))).contains ALL
            = false →
        (keysOf (fromEntries (genSnapshot (applyTo tOwn chain input opts) w))).contains GENFN
            = false →
        (ownKeysTrap (applyTo tOwn chain input opts) w).contains ALL = false
          ∧ (ownKeysTrap (applyTo tOwn chain input opts) w).contains GENFN = false
          ∧ hasTrap (applyTo tOwn chain input opts) w ALL = chainHas chain ALL
          ∧ hasTrap (applyTo tOwn chain input opts) w GENFN = chainHas chain GENFN)
      ∧ (∀ (tOwn : PlainObj) (chain : List PlainObj) (l : List (String × Value)) (K : String)
          (w : Nat),
          (K = ALL ∨ K = GENFN) →
          lookupOwn (fromEntries l) ALL = none →
          genOf (fromEntries l) = none →
          lookupOwn tOwn K = none →
          readProp (applyTo tOwn chain (SourceInput.objInput l) {}) w K
            = chainLookup chain K) := by
  constructor
  · intro tOwn chain input opts w hgA hgG
    have hcA : (relevantKeys (applyTo tOwn chain input opts) w).contains ALL = false :=
      relevantKeys_contains_false _ _ _ (litKeys_not_contains_ALL ..) hgA
    have hcG : (relevantKeys (applyTo tOwn chain input opts) w).contains GENFN = false :=
      relevantKeys_contains_false _ _ _ (litKeys_not_contains_GENFN ..) hgG
    refine ⟨hcA, hcG, ?_, ?_⟩
    · unfold hasTrap
      rw [hcA]
      rfl
    · unfold hasTrap
      rw [hcG]
      rfl
  · intro tOwn chain l K w hK hstar hgen hnotOwn
    have hkvm : (applyTo tOwn chain (SourceInput.objInput l) {}).keyValueMap
        = installFallback (fromEntries l) := rfl
    have hsnap : genSnapshot (applyTo tOwn chain (SourceInput.objInput l) {}) w = [] := by
      apply genSnapshot_eq_nil
      rw [hkvm, genOf_installFallback]
      exact hgen
    have hcont :
        (relevantKeys (applyTo tOwn chain (SourceInput.objInput l) {}) w).contains K
          = false := by
      apply relevantKeys_contains_false
      · rw [hkvm, litKeys_installFallback]
        rcases hK with rfl | rfl
        · exact litKeys_not_contains_ALL ..
        · exact litKeys_not_contains_GENFN ..
      · rw [hsnap]
        rfl
    rw [readProp_miss _ _ _ hnotOwn]
    exact getTrap_unclaimed_default _ _ _ hcont
      (by rw [hkvm]; exact lookupOwn_installFallback_ALL_none _ hstar)

theorem c7_witness :
    (ownKeysTrap (applyTo [] [[("*", Value.str "starDeep")]]
        (SourceInput.objInput [("a", Value.num 1)]) {}) 0).contains "*" = false
      ∧ hasTrap (applyTo [] [[("*", Value.str "starDeep")]]
          (SourceInput.objInput [("a", Value.num 1)]) {}) 0 "*"
          = chainHas [[("*", Value.str "starDeep")]] "*"
      ∧ readProp (applyTo [] [[("*", Value.str "starDeep")]]
          (SourceInput.objInput [("a", Value.num 1)]) {}) 0 "*" = Value.str "starDeep"
      ∧ readProp (applyTo [] [[("*", Value.str "starDeep")]]
          (SourceInput.objInput [("a", Value.num 1)]) {}) 0 "**" = Value.undef := by
  refine ⟨?_, ?_, ?_, ?_⟩
  · exact (c7_markers_not_literally_exposed.1 [] [[("*", Value.str "starDeep")]]
      (SourceInput.objInput [("a", Value.num 1)]) {} 0 rfl rfl).1
  · exact (c7_markers_not_literally_exposed.1 [] [[("*", Value.str "starDeep")]]
      (SourceInput.objInput [("a", Value.num 1)]) {} 0 rfl rfl).2.2.1
  · exact c7_markers_not_literally_exposed.2 [] [[("*", Value.str "starDeep")]]
      [("a", Value.num 1)] "*" 0 (Or.inl rfl) rfl rfl rfl
  · exact c7_markers_not_literally_exposed.2 [] [[("*", Value.str "starDeep")]]
      [("a", Value.num 1)] "**" 0 (Or.inr rfl) rfl rfl rfl

/-- C8 is false as stated: the relevant-key list is NOT deduplicated — a
key occurring both in the literal mapping and in the generator snapshot
appears twice, and the `ownKeys` trap returns that duplicated list. -/
theorem c8_counterexample :
    ownKeysTrap (applyTo [] [] (SourceInput.objInput
        [("a", Value.num 1), ("**", Value.genFn (fun _ => [("a", Value.num 2)]))]) {}) 0
        = ["a", "a"]
      ∧ ¬ List.Nodup (ownKeysTrap (applyTo [] [] (SourceInput.objInput
          [("a", Value.num 1), ("**", Value.genFn (fun _ => [("a", Value.num 2)]))]) {}) 0)
        := by
  have h : ownKeysTrap (applyTo [] [] (SourceInput.objInput
      [("a", Value.num 1), ("**", Value.genFn (fun _ => [("a", Value.num 2)]))]) {}) 0
      = ["a", "a"] := rfl
  refine ⟨h, ?_⟩
  rw [h]
  decide

/-- C8 (amended): the relevant-key list returned by the `ownKeys` trap
is exactly the filtered literal keys (in their insertion order, after
exclusion and marker filtering) followed by the fresh generator
snapshot's keys, concatenated without deduplication. -/
theorem c8_relevant_keys_structure
    (tOwn : PlainObj) (chain : List PlainObj) (l : List (String × Value))
    (input : SourceInput) (opts : Options) (w : Nat)
    (hinput : input = SourceInput.entries l ∨ input = SourceInput.objInput l) :
    ownKeysTrap (applyTo tOwn chain input opts) w
      = litKeys (fromEntries l) opts.except
        ++ keysOf (fromEntries (match genOf (fromEntries l) with
            | some g => g w
            | none => [])) := by
  have hni : normalizeSource input = fromEntries l := by
    rcases hinput with h | h <;> rw [h] <;> rfl
  show relevantKeys (applyTo tOwn chain input opts) w = _
  rw [relevantKeys_split, genSnapshot_eq_genOf, applyTo_keyValueMap, applyTo_options, hni]
  cases hf : opts.fallback
  · simp only [cond_false]
  · simp only [cond_true, litKeys_installFallback, genOf_installFallback]

theorem c8_witness :
    ownKeysTrap (applyTo [] [] (SourceInput.objInput
        [("a", Value.num 1), ("b", Value.num 2),
          ("**", Value.genFn (fun _ => [("b", Value.num 9), ("c", Value.num 3)]))]) {}) 0
      = ["a", "b", "b", "c"] := by
  have h := c8_relevant_keys_structure [] []
    [("a", Value.num 1), ("b", Value.num 2),
      ("**", Value.genFn (fun _ => [("b", Value.num 9), ("c", Value.num 3)]))]
    _ {} 0 (Or.inr rfl)
  rw [h]
  rfl

/-- C9: a literal entry mapped to the null sentinel that is not also
yielded by the generator snapshot reads back as `undefined`, not as a
real null: the `??` in the `get` trap treats the stored `null` as "no
literal answer" and the generator snapshot has nothing for the key. -/
theorem c9_null_literal_reads_undefined
    (tOwn : PlainObj) (chain : List PlainObj) (l : List (String × Value))
    (input : SourceInput) (K : String) (w : Nat)
    (hinput : input = SourceInput.entries l ∨ input = SourceInput.objInput l)
    (hKv : lookupOwn (fromEntries l) K = some Value.null)
    (hgenK : lookupOwn (fromEntries (match genOf (fromEntries l) with
        | some g => g w
        | none => [])) K = none)
    (hA : K ≠ ALL) (hG : K ≠ GENFN)
    (hnotOwn : lookupOwn tOwn K = none) :
    readProp (applyTo tOwn chain input {}) w K = Value.undef := by
  have hni : normalizeSource input = fromEntries l := by
    rcases hinput with h | h <;> rw [h] <;> rfl
  have hkvm : (applyTo tOwn chain input {}).keyValueMap
      = installFallback (fromEntries l) := by
    rw [applyTo_keyValueMap, hni]
    rfl
  have hlk : lookupOwn (applyTo tOwn chain input {}).keyValueMap K = some Value.null := by
    rw [hkvm, lookupOwn_installFallback_ne _ _ hA]
    exact hKv
  have hsnap : genSnapshot (applyTo tOwn chain input {}) w
      = (match genOf (fromEntries l) with
        | some g => g w
        | none => []) := by
    have hg : genOf (applyTo tOwn chain input {}).keyValueMap = genOf (fromEntries l) := by
      rw [hkvm, genOf_installFallback]
    rw [genSnapshot_eq_genOf, hg]
  have hcont : (relevantKeys (applyTo tOwn chain input {}) w).contains K = true := by
    apply relevantKeys_contains_of_lit
    rw [applyTo_options, hkvm, litKeys_installFallback]
    exact (mem_litKeys_iff ..).mpr ⟨mem_keysOf_of_lookupOwn _ _ _ hKv, rfl, hA, hG⟩
  rw [readProp_miss _ _ _ hnotOwn, getTrap_claimed _ _ _ hcont]
  unfold resolveClaimed
  rw [hsnap, hlk]
  simp only [hgenK]
  rfl

theorem c9_witness :
    lookupOwn (fromEntries [("nullProp", Value.null), ("undefinedProp", Value.undef)])
        "nullProp" = some Value.null
      ∧ readProp (applyTo [("originalProp", Value.str "original value")] []
          (SourceInput.objInput [("nullProp", Value.null), ("undefinedProp", Value.undef)])
          {}) 0 "nullProp" = Value.undef := by
  refine ⟨rfl, ?_⟩
  exact c9_null_literal_reads_undefined [("originalProp", Value.str "original value")] []
    [("nullProp", Value.null), ("undefinedProp", Value.undef)]
    _ "nullProp" 0 (Or.inr rfl) rfl rfl (by decide) (by decide) rfl

/-- C10: a literal entry with a nullish mapped value is still claimed by
the layer: the key is reported present by the existence trap and listed
by the enumeration trap, yet reading it yields `undefined` without
consulting the wildcard handler or the original chain — a value for the
key defined deeper in the original chain is shadowed, whatever that
chain holds. -/
theorem c10_nullish_entry_shadows
    (tOwn : PlainObj) (chain : List PlainObj) (l : List (String × Value))
    (input : SourceInput) (K : String) (v : Value) (w : Nat)
    (hinput : input = SourceInput.entries l ∨ input = SourceInput.objInput l)
    (hKv : lookupOwn (fromEntries l) K = some v)
    (hnv : isNullish v = true)
    (hgenK : lookupOwn (fromEntries (match genOf (fromEntries l) with
        | some g => g w
        | none => [])) K = none)
    (hA : K ≠ ALL) (hG : K ≠ GENFN)
    (hnotOwn : lookupOwn tOwn K = none) :
    hasProp (applyTo tOwn chain input {}) w K = true
      ∧ (ownKeysTrap (applyTo tOwn chain input {}) w).contains K = true
      ∧ readProp (applyTo tOwn chain input {}) w K = Value.undef := by
  have hni : normalizeSource input = fromEntries l := by
    rcases hinput with h | h <;> rw [h] <;> rfl
  have hkvm : (applyTo tOwn chain input {}).keyValueMap
      = installFallback (fromEntries l) := by
    rw [applyTo_keyValueMap, hni]
    rfl
  have hlk : lookupOwn (applyTo tOwn chain input {}).keyValueMap K = some v := by
    rw [hkvm, lookupOwn_installFallback_ne _ _ hA]
    exact hKv
  have hsnap : genSnapshot (applyTo tOwn chain input {}) w
      = (match genOf (fromEntries l) with
        | some g => g w
        | none => []) := by
    have hg : genOf (applyTo tOwn chain input {}).keyValueMap = genOf (fromEntries l) := by
      rw [hkvm, genOf_installFallback]
    rw [genSnapshot_eq_genOf, hg]
  have hcont : (relevantKeys (applyTo tOwn chain input {}) w).contains K = true := by
    apply relevantKeys_contains_of_lit
    rw [applyTo_options, hkvm, litKeys_installFallback]
    exact (mem_litKeys_iff ..).mpr ⟨mem_keysOf_of_lookupOwn _ _ _ hKv, rfl, hA, hG⟩
  refine ⟨?_, hcont, ?_⟩
  · unfold hasProp hasTrap
    rw [hcont, applyTo_targetOwn, hnotOwn]
    rfl
  · rw [readProp_miss _ _ _ hnotOwn, getTrap_claimed _ _ _ hcont]
    unfold resolveClaimed
    rw [hsnap, hlk]
    simp only [Option.getD_some, hnv, cond_true, hgenK]
    rfl

theorem c10_witness :
    hasProp (applyTo [] [[("undefProp", Value.str "deep")]]
        (SourceInput.objInput
          [("undefProp", Value.undef),
            ("*", Value.fn [("undefProp", Value.str "wild")] Value.undef)]) {}) 0 "undefProp"
        = true
      ∧ (ownKeysTrap (applyTo [] [[("undefProp", Value.str "deep")]]
          (SourceInput.objInput
            [("undefProp", Value.undef),
              ("*", Value.fn [("undefProp", Value.str "wild")] Value.undef)]) {}) 0).contains
          "undefProp" = true
      ∧ readProp (applyTo [] [[("undefProp", Value.str "deep")]]
          (SourceInput.objInput
            [("undefProp", Value.undef),
              ("*", Value.fn [("undefProp", Value.str "wild")] Value.undef)]) {}) 0 "undefProp"
          = Value.undef
      ∧ chainLookup [[("undefProp", Value.str "deep")]] "undefProp" = Value.str "deep" := by
  refine ⟨?_, ?_, ?_, rfl⟩
  · exact (c10_nullish_entry_shadows [] [[("undefProp", Value.str "deep")]]
      [("undefProp", Value.undef), ("*", Value.fn [("undefProp", Value.str "wild")] Value.undef)]
      _ "undefProp" Value.undef 0 (Or.inr rfl) rfl rfl rfl (by decide) (by decide) rfl).1
  · exact (c10_nullish_entry_shadows [] [[("undefProp", Value.str "deep")]]
      [("undefProp", Value.undef), ("*", Value.fn [("undefProp", Value.str "wild")] Value.undef)]
      _ "undefProp" Value.undef 0 (Or.inr rfl) rfl rfl rfl (by decide) (by decide) rfl).2.1
  · exact (c10_nullish_entry_shadows [] [[("undefProp", Value.str "deep")]]
      [("undefProp", Value.undef), ("*", Value.fn [("undefProp", Value.str "wild")] Value.undef)]
      _ "undefProp" Value.undef 0 (Or.inr rfl) rfl rfl rfl (by decide) (by decide) rfl).2.2
